import Mathlib

/-!
Shallow embedding of the LoreCompendium document engine
(`document_engine.py`, `discord_main.py`) and proofs of the spec claims.

Strings of the Python program are modelled as `String` / `List Char`;
file paths as `String`; the Chroma vector store as the list of chunk
documents it holds; the JSON manifest as an association list from path to
stored signature.
-/

namespace LoreCompendium

/-- A file path. -/
abbrev Path := String

/-- `_get_file_signature`: `{mtime, size}`. Python's float mtime is
modelled as a natural number; only equality of signatures matters. -/
structure Sig where
  mtime : Nat
  size : Nat
deriving Repr, DecidableEq

/-- A langchain `Document`: `page_content` plus its metadata. The
metadata keys the engine reads (`source`, `page`, `start_index`) are
modelled as fields; `page` and `start_index` are optional because not
every loader sets them. -/
structure Document where
  page_content : String
  source : Path
  page : Option Nat
  start_index : Option Nat
deriving Repr, DecidableEq

/-- Manifest values: `some s` is a `{mtime, size}` dict, `none` models a
legacy empty-signature entry `{}` produced by `_load_index_manifest` for
the newline-list format. -/
abbrev SigVal := Option Sig

/-- The persisted index manifest `{path: {mtime, size}}`, as an
association list. -/
abbrev Manifest := List (Path × SigVal)

/-- `manifest.get(p)` / `manifest[p]`. -/
def manifestLookup (m : Manifest) (p : Path) : Option SigVal :=
  (m.find? (fun e => e.1 == p)).map (fun e => e.2)

/-- `manifest.pop(p, None)`: remove the entry for `p` if present. -/
def manifestErase (m : Manifest) (p : Path) : Manifest :=
  m.filter (fun e => e.1 != p)

/-- `manifest[p] = v`: (re)bind `p` to `v`. -/
def manifestSet (m : Manifest) (p : Path) (v : SigVal) : Manifest :=
  manifestErase m p ++ [(p, v)]

/-! ## Chunker

`ingestion_worker` and the bulk pass both build a
`RecursiveCharacterTextSplitter(chunk_size=1000, chunk_overlap=200,
add_start_index=True)`. -/

/-- The splitter's window size (`chunk_size=1000`). -/
def chunk_size : Nat := 1000

/-- The splitter's overlap (`chunk_overlap=200`). -/
def chunk_overlap : Nat := 200

/-- Modelled from the spec: the splitting algorithm itself is
`RecursiveCharacterTextSplitter` from the langchain library, which is not
part of this repository; the spec describes it as splitting text into
overlapping windows of 1000 units with 200 units of overlap, recording
each window's start offset. `chunkText s start` returns the list of
`(start offset, window)` pairs for text `s` beginning at offset
`start`. -/
def chunkText (s : List Char) (start : Nat) : List (Nat × List Char) :=
  if h : s = [] then []
  else if hl : s.length ≤ chunk_size then [(start, s)]
  else
    (start, s.take chunk_size) ::
      chunkText (s.drop (chunk_size - chunk_overlap)) (start + (chunk_size - chunk_overlap))
termination_by s.length
decreasing_by
  simp only [List.length_drop]
  have : 0 < s.length := List.length_pos.mpr h
  simp only [chunk_size, chunk_overlap] at *
  omega

/-- `text_splitter.split_documents(docs)` followed by
`filter_complex_metadata` (which strips non-primitive metadata values;
all modelled metadata is primitive, so it only passes chunks through):
each document's text is windowed, every chunk keeps the parent's
`source` and `page` metadata, and `add_start_index=True` records the
window's start offset. -/
def splitDocuments (docs : List Document) : List Document :=
  docs.flatMap (fun d =>
    (chunkText d.page_content.toList 0).map (fun c =>
      { page_content := String.mk c.2
        source := d.source
        page := d.page
        start_index := some c.1 }))

/-! ## `split_into_chunks` (discord_main.py)

`[s[i:i + chunk_size] for i in range(0, len(s), chunk_size)]` with
default `chunk_size=2000`. -/

/-- `split_into_chunks(s, n)`: successive slices `s[i:i+n]` for
`i = 0, n, 2n, ...`. The comprehension is rendered recursively; a step
of `0` would raise in Python (`range` rejects it) and yields `[]`
here. -/
def split_into_chunks (s : List Char) (n : Nat := 2000) : List (List Char) :=
  if hn : n = 0 then []
  else if hs : s = [] then []
  else s.take n :: split_into_chunks (s.drop n) n
termination_by s.length
decreasing_by
  simp only [List.length_drop]
  have : 0 < s.length := List.length_pos.mpr hs
  omega

/-! ## Document Loader (`load_document_by_extension`) -/

/-- `str.rfind(c)`-style helper: index of the last occurrence of `c` in
`l`, if any. -/
def rfindIdx (l : List Char) (c : Char) : Option Nat :=
  match l.reverse.findIdx? (fun x => x == c) with
  | none => none
  | some j => some (l.length - 1 - j)

/-- `os.path.splitext(p)[1]` for a POSIX path: the suffix from the last
dot, provided that dot lies after the last separator and at least one
non-dot character of the basename precedes it (so a basename of leading
dots such as `.bashrc` has no extension). -/
def splitextExt (p : List Char) : List Char :=
  let sepIdx : Int := match rfindIdx p '/' with | none => -1 | some i => (i : Int)
  let dotIdx : Int := match rfindIdx p '.' with | none => -1 | some i => (i : Int)
  if sepIdx < dotIdx then
    let start := (sepIdx + 1).toNat
    let stop := dotIdx.toNat
    if ((p.drop start).take (stop - start)).any (fun x => x != '.') then p.drop stop
    else []
  else []

/-- `os.path.splitext(file_path)[1].lower()`. -/
def extLower (file_path : Path) : String :=
  String.mk ((splitextExt file_path.toList).map Char.toLower)

/-- The loader's external world: whether a path currently exists on
disk (`os.path.exists`) and the outcome of the format-specific library
parser on it (`PyPDFLoader`, `UnstructuredWordDocumentLoader`, ...):
either the loaded documents or a raised exception's message. -/
structure LoaderEnv where
  exists_on_disk : Path → Bool
  parse : Path → Except String (List Document)

/-- The extension chain of `load_document_by_extension`'s `if`/`elif`
dispatch: `.pdf`, `.docx`, `.xlsx`, `.csv`, and the `.txt`/`.md`
pair. -/
def isSupportedExt (ext : String) : Bool :=
  ext == ".pdf" || ext == ".docx" || ext == ".xlsx" || ext == ".csv"
    || ext == ".txt" || ext == ".md"

/-- `load_document_by_extension`: return `[]` for a vanished path,
dispatch by lowercased extension, return `[]` for unsupported
extensions, and catch any parser exception as `[]`. -/
def load_document_by_extension (env : LoaderEnv) (file_path : Path) : List Document :=
  if env.exists_on_disk file_path = false then []
  else if isSupportedExt (extLower file_path) then
    match env.parse file_path with
    | .ok docs => docs
    | .error _ => []
  else []

/-! ## Vector store, manifest update, ingestion worker -/

/-- The Chroma collection, modelled as the list of chunk documents it
holds. -/
abbrev VectorStore := List Document

/-- `vectorstore.delete(where={"source": file_path})`: remove every
chunk whose `source` metadata equals the path (a no-op when none
match). -/
def deleteSource (vs : VectorStore) (file_path : Path) : VectorStore :=
  vs.filter (fun d => d.source != file_path)

/-- `_update_manifest(action, file_path)`: under the manifest lock, load
the manifest, pop the entry on `"delete"`, otherwise (the `"add"`
action) write the file's current signature — but only if the file still
exists. `sigOf` supplies `os.path.exists` together with
`_get_file_signature`. -/
def updateManifest (sigOf : Path → Option Sig) (action : String) (m : Manifest)
    (file_path : Path) : Manifest :=
  if action == "delete" then manifestErase m file_path
  else
    match sigOf file_path with
    | some s => manifestSet m file_path (some s)
    | none => m

/-- The ingestion worker's external world: the loader's world, the
current file signatures, and whether `vectorstore.add_documents`
succeeds (a raised insertion error is caught by the worker's
`try/except`). -/
structure IngestEnv where
  loader : LoaderEnv
  sigOf : Path → Option Sig
  insertOk : Bool

/-- The load-and-ingest block of the worker's `add`/`update` branch:
load the file; if it yields documents, split them; if splits are
nonempty, insert them and then write the manifest entry. A load that
fails or yields nothing, or an insertion failure, leaves both the store
and the manifest untouched. -/
def ingestFile (env : IngestEnv) (vs : VectorStore) (m : Manifest)
    (file_path : Path) : VectorStore × Manifest :=
  let docs := load_document_by_extension env.loader file_path
  if docs.isEmpty then (vs, m)
  else
    let splits := splitDocuments docs
    if splits.isEmpty then (vs, m)
    else if env.insertOk then
      (vs ++ splits, updateManifest env.sigOf "add" m file_path)
    else (vs, m)

/-- One dequeued event's processing inside `ingestion_worker` (store
already known to exist): `"delete"` removes the path's chunks and
manifest entry; `"update"` deletes the path's chunks first and then
ingests; `"add"` ingests directly. -/
def processEvent (env : IngestEnv) (vs : VectorStore) (m : Manifest)
    (action : String) (file_path : Path) : VectorStore × Manifest :=
  if action == "delete" then
    (deleteSource vs file_path, updateManifest env.sigOf "delete" m file_path)
  else if action == "add" || action == "update" then
    let vs1 := if action == "update" then deleteSource vs file_path else vs
    ingestFile env vs1 m file_path
  else (vs, m)

/-- The worker's observable state: `GLOBAL_VECTORSTORE` (`none` before
`initialize_vectorstore` assigns it), the manifest, and the
`INGESTION_QUEUE` contents in order. -/
structure WorkerState where
  store : Option VectorStore
  manifest : Manifest
  queue : List (String × Path)
deriving Repr, DecidableEq

/-- One iteration of the `ingestion_worker` loop: dequeue the head
event (an empty queue blocks, modelled as a no-op); if
`GLOBAL_VECTORSTORE is None` the iteration calls `task_done()` and
`continue`s — the event is consumed without any processing; otherwise
the event is processed. -/
def workerStep (env : IngestEnv) (w : WorkerState) : WorkerState :=
  match w.queue with
  | [] => w
  | (action, file_path) :: rest =>
    match w.store with
    | none => { store := none, manifest := w.manifest, queue := rest }
    | some vs =>
      let r := processEvent env vs w.manifest action file_path
      { store := some r.1, manifest := r.2, queue := rest }

/-! ## Startup bulk ingestion (the reconciliation part of
`initialize_vectorstore`, steps 2–3) -/

/-- `current_files[p]`: the walked file's signature. -/
def currentLookup (current : List (Path × Sig)) (p : Path) : Option Sig :=
  (current.find? (fun e => e.1 == p)).map (fun e => e.2)

/-- `new_files`: walked paths absent from the manifest. -/
def new_files (m : Manifest) (current : List (Path × Sig)) : List Path :=
  (current.map (fun e => e.1)).filter (fun p => (manifestLookup m p).isNone)

/-- `updated_files`: walked paths present in the manifest whose stored
value differs from the current signature (a legacy empty-signature
entry always differs). -/
def updated_files (m : Manifest) (current : List (Path × Sig)) : List Path :=
  (current.map (fun e => e.1)).filter (fun p =>
    match manifestLookup m p with
    | none => false
    | some v => v != currentLookup current p)

/-- `deleted_files`: manifest paths no longer on disk. -/
def deleted_files (m : Manifest) (current : List (Path × Sig)) : List Path :=
  (m.map (fun e => e.1)).filter (fun p => !(current.map (fun e => e.1)).contains p)

/-- `files_to_ingest = new_files + updated_files`. -/
def files_to_ingest (m : Manifest) (current : List (Path × Sig)) : List Path :=
  new_files m current ++ updated_files m current

/-- The bulk reconciliation pass of `initialize_vectorstore` over a
walked snapshot `current` of the document root: apply deletions to the
store and manifest; delete updated files' old chunks; load every file
to ingest (the process pool's completion order only permutes `docs`,
modelled here in submission order); if any documents were produced,
split and insert them all, then write a manifest entry for every file
in `files_to_ingest`. -/
def bulkIngest (env : IngestEnv) (m : Manifest) (current : List (Path × Sig))
    (vs : VectorStore) : VectorStore × Manifest :=
  let del := deleted_files m current
  let vs1 := del.foldl (fun acc p => deleteSource acc p) vs
  let m1 := del.foldl (fun acc p => updateManifest env.sigOf "delete" acc p) m
  let toIngest := files_to_ingest m current
  if toIngest.isEmpty then (vs1, m1)
  else
    let vs2 := (updated_files m current).foldl (fun acc p => deleteSource acc p) vs1
    let docs := toIngest.flatMap (fun p => load_document_by_extension env.loader p)
    if docs.isEmpty then (vs2, m1)
    else
      let splits := splitDocuments docs
      let m2 := toIngest.foldl (fun acc p => updateManifest env.sigOf "add" acc p) m1
      (vs2 ++ splits, m2)

/-! ## RAG state machine (graph nodes, routing, driver, entry point) -/

/-- The model services and retriever behind the graph nodes:
`retriever.invoke` on the current question, the grader chain's batch of
`binary_score` strings (one per document), the rewriter chain, and the
RAG chain's streamed answer (concatenated). -/
structure RagEnv where
  retrieveFor : String → List Document
  gradeScores : String → List Document → List String
  rewrite : String → String
  generateAnswer : String → List Document → String

/-- `GraphState`: question, generation (absent until `generate_rag`
runs), documents, loop counter. -/
structure GraphState where
  question : String
  generation : Option String
  documents : List Document
  loop_step : Nat
deriving Repr, DecidableEq

/-- `retrieve`: fetch documents for the current question (the returned
partial state merges into `GraphState`, leaving the other keys). -/
def retrieve (env : RagEnv) (st : GraphState) : GraphState :=
  { st with documents := env.retrieveFor st.question }

/-- The accumulation loop of `grade_documents`:
`for i, score in enumerate(scores): if score.binary_score == "yes":
filtered_docs.append(documents[i])`, over the paired lists. -/
def gradeFilter : List (Document × String) → List Document
  | [] => []
  | (d, s) :: rest => if s == "yes" then d :: gradeFilter rest else gradeFilter rest

/-- `grade_documents`'s document filtering: an empty retrieval
short-circuits to `[]`; otherwise each document is kept exactly when
its grader output is the string `"yes"`. -/
def grade_documents (documents : List Document) (scores : List String) : List Document :=
  if documents.isEmpty then [] else gradeFilter (documents.zip scores)

/-- The `grade_documents` node on the graph state. -/
def gradeNode (env : RagEnv) (st : GraphState) : GraphState :=
  { st with documents := grade_documents st.documents (env.gradeScores st.question st.documents) }

/-- `transform_query`: rewrite the question and increment the loop
counter; documents pass through. -/
def transform_query (env : RagEnv) (st : GraphState) : GraphState :=
  { st with question := env.rewrite st.question, loop_step := st.loop_step + 1 }

/-- `decide_to_generate`: with no surviving documents, route to
`"transform_query"` while `loop_step < 3`, else `"generate"`; with
documents, always `"generate"`. -/
def decide_to_generate (documents : List Document) (loop_step : Nat) : String :=
  if documents.isEmpty then
    if loop_step ≥ 3 then "generate" else "transform_query"
  else "generate"

/-- `generate_rag`: produce the answer from the surviving documents;
the documents pass through to the final state. -/
def generate_rag (env : RagEnv) (st : GraphState) : GraphState :=
  { st with generation := some (env.generateAnswer st.question st.documents) }

/-- The compiled workflow's nodes. -/
inductive Node where
  | retrieveN
  | gradeN
  | transformN
  | generateN
deriving Repr, DecidableEq

/-- The langgraph driver for the compiled workflow with a recursion
limit: each executed node consumes one unit of `fuel`; exhausting it
raises `GraphRecursionError`. Edges follow the workflow build:
START→retrieve→grade, the conditional edge routed by
`decide_to_generate`, transform→retrieve, generate→END. -/
def runFrom (env : RagEnv) (fuel : Nat) (node : Node) (st : GraphState) :
    Except String GraphState :=
  match fuel with
  | 0 => Except.error "GraphRecursionError"
  | f + 1 =>
    match node with
    | .retrieveN => runFrom env f .gradeN (retrieve env st)
    | .gradeN =>
      let st2 := gradeNode env st
      if decide_to_generate st2.documents st2.loop_step == "transform_query" then
        runFrom env f .transformN st2
      else
        runFrom env f .generateN st2
    | .transformN => runFrom env f .retrieveN (transform_query env st)
    | .generateN => Except.ok (generate_rag env st)

/-- `config = {"recursion_limit": 25}` in `query_documents`. -/
def recursion_limit : Nat := 25

/-- `inputs = {"question": user_input, "loop_step": 0}`. -/
def initialState (q : String) : GraphState :=
  { question := q, generation := none, documents := [], loop_step := 0 }

/-- `os.path.basename`. -/
def basename (p : Path) : String :=
  match rfindIdx p.toList '/' with
  | none => p
  | some i => String.mk (p.toList.drop (i + 1))

/-- The sources-list location string of `query_documents`: page if
present (1-based), else start char, else `"N/A"`. -/
def citationLocation (d : Document) : String :=
  match d.page with
  | some pg => "Page " ++ toString (pg + 1)
  | none =>
    match d.start_index with
    | some i => "Start Char " ++ toString i
    | none => "N/A"

/-- `doc.page_content[:50] + "..."`. -/
def snippetOf (d : Document) : String :=
  String.mk (d.page_content.toList.take 50) ++ "..."

/-- One entry of the structured sources list. -/
structure Citation where
  file : String
  location : String
  snippet : String
deriving Repr, DecidableEq

/-- `{"file": ..., "location": ..., "snippet": ...}` for one used
document. -/
def mkCitation (d : Document) : Citation :=
  { file := basename d.source, location := citationLocation d, snippet := snippetOf d }

/-- The values `query_documents` can return: a plain answer string, the
`f"Error: {e}"` string, an answer-with-citations dictionary, or the
`{"error": str(e)}` dictionary. -/
inductive QueryOutput where
  | text (answer : String)
  | errorText (message : String)
  | withSources (answer : String) (citations : List Citation)
  | errorDict (error : String)
deriving Repr, DecidableEq

/-- `query_documents`, factored over the result of streaming the graph
(`run` is `Except.error e` when the execution raised `e`, including
`GraphRecursionError` from the 25-step recursion limit): an exception
is caught and returned as `f"Error: {e}"` or `{"error": str(e)}`;
otherwise the final generation (defaulting to `"No answer generated."`)
and, when requested, the structured sources built from the used
documents. -/
def query_documents (run : Except String GraphState) (include_sources : Bool) :
    QueryOutput :=
  match run with
  | .error e =>
    if include_sources then .errorDict e else .errorText ("Error: " ++ e)
  | .ok st =>
    let final_answer := st.generation.getD "No answer generated."
    if include_sources then .withSources final_answer (st.documents.map mkCitation)
    else .text final_answer

/-- Whether a `QueryOutput` is one of the two explicit error shapes. -/
def isErrorOutput : QueryOutput → Bool
  | .errorText _ => true
  | .errorDict _ => true
  | _ => false

/-! ## Helper lemmas -/

theorem split_into_chunks_length_le (s : List Char) (n : Nat) :
    ∀ c ∈ split_into_chunks s n, c.length ≤ n := by
  intro c hc
  rw [split_into_chunks] at hc
  split at hc
  · simp at hc
  · split at hc
    · simp at hc
    · rename_i hn hs
      rcases List.mem_cons.mp hc with h | h
      · subst h; exact List.length_take_le n s
      · exact split_into_chunks_length_le (s.drop n) n c h
termination_by s.length
decreasing_by
  have h1 : ¬s = [] := by assumption
  have h2 : 0 < s.length := List.length_pos.mpr h1
  simp only [List.length_drop]
  omega

theorem split_into_chunks_flatten (s : List Char) (n : Nat) (hn : n ≠ 0) :
    (split_into_chunks s n).flatten = s := by
  rw [split_into_chunks]
  split
  · omega
  · split
    · rename_i hs; simp [hs]
    · rename_i hn0 hs
      rw [List.flatten_cons, split_into_chunks_flatten (s.drop n) n hn,
        List.take_append_drop]
termination_by s.length
decreasing_by
  have h1 : ¬s = [] := by assumption
  have h2 : 0 < s.length := List.length_pos.mpr h1
  simp only [List.length_drop]
  omega

theorem gradeFilter_eq_filter (l : List (Document × String)) :
    gradeFilter l = (l.filter (fun pr => pr.2 == "yes")).map Prod.fst := by
  induction l with
  | nil => rfl
  | cons a l ih =>
    obtain ⟨d, sc⟩ := a
    by_cases h : sc == "yes" <;> simp [gradeFilter, List.filter_cons, h, ih]

theorem gradeFilter_zip_sublist (documents : List Document) (scores : List String) :
    (gradeFilter (documents.zip scores)).Sublist documents := by
  induction documents generalizing scores with
  | nil => simp [gradeFilter]
  | cons d ds ih =>
    cases scores with
    | nil => simp [gradeFilter]
    | cons sc ss =>
      rw [List.zip_cons_cons, gradeFilter]
      by_cases h : sc == "yes"
      · rw [if_pos h]; exact (ih ss).cons₂ d
      · rw [if_neg h]; exact (ih ss).cons d

theorem decide_to_generate_iff (documents : List Document) (loop_step : Nat) :
    decide_to_generate documents loop_step = "transform_query" ↔
      (documents = [] ∧ loop_step < 3) := by
  unfold decide_to_generate
  rcases documents with _ | ⟨d, ds⟩
  · rw [List.isEmpty_nil, if_pos rfl]
    by_cases h3 : loop_step ≥ 3
    · rw [if_pos h3]
      constructor
      · intro h; exact absurd h (by decide)
      · rintro ⟨-, hlt⟩; omega
    · rw [if_neg h3]
      constructor
      · intro _; exact ⟨rfl, by omega⟩
      · intro _; rfl
  · rw [List.isEmpty_cons, if_neg (by simp)]
    constructor
    · intro h; exact absurd h (by decide)
    · rintro ⟨h, -⟩; exact absurd h (by simp)

theorem decide_to_generate_ge3 (documents : List Document) (loop_step : Nat)
    (h : 3 ≤ loop_step) : decide_to_generate documents loop_step = "generate" := by
  unfold decide_to_generate
  rcases documents with _ | _
  · rw [List.isEmpty_nil, if_pos rfl, if_pos h]
  · rw [List.isEmpty_cons, if_neg (by simp)]

theorem runFrom_retrieveN_succ (env : RagEnv) (f : Nat) (st : GraphState) :
    runFrom env (f + 1) .retrieveN st = runFrom env f .gradeN (retrieve env st) := rfl

theorem runFrom_gradeN_succ (env : RagEnv) (f : Nat) (st : GraphState) :
    runFrom env (f + 1) .gradeN st =
      if decide_to_generate (gradeNode env st).documents (gradeNode env st).loop_step
          == "transform_query" then
        runFrom env f .transformN (gradeNode env st)
      else runFrom env f .generateN (gradeNode env st) := rfl

theorem runFrom_transformN_succ (env : RagEnv) (f : Nat) (st : GraphState) :
    runFrom env (f + 1) .transformN st =
      runFrom env f .retrieveN (transform_query env st) := rfl

theorem runFrom_generateN_succ (env : RagEnv) (f : Nat) (st : GraphState) :
    runFrom env (f + 1) .generateN st = Except.ok (generate_rag env st) := rfl

theorem runFrom_reaches_generate (k : Nat) :
    ∀ (env : RagEnv) (st : GraphState) (fuel : Nat),
      st.loop_step ≤ 3 → 3 - st.loop_step ≤ k → 3 * k + 3 ≤ fuel →
      ∃ out, runFrom env fuel .retrieveN st = Except.ok out ∧ out.loop_step ≤ 3 := by
  induction k with
  | zero =>
    intro env st fuel h3 hk hf
    obtain ⟨f, rfl⟩ : ∃ f, fuel = f + 1 + 1 + 1 := ⟨fuel - 3, by omega⟩
    have hst : st.loop_step = 3 := by omega
    rw [runFrom_retrieveN_succ, runFrom_gradeN_succ]
    rw [if_neg ?_]
    · rw [runFrom_generateN_succ]
      refine ⟨_, rfl, ?_⟩
      have he : (generate_rag env (gradeNode env (retrieve env st))).loop_step
          = st.loop_step := rfl
      omega
    · have he : (gradeNode env (retrieve env st)).loop_step = st.loop_step := rfl
      rw [beq_iff_eq, he, hst, decide_to_generate_ge3 _ _ (by omega)]
      decide
  | succ k ih =>
    intro env st fuel h3 hk hf
    obtain ⟨f, rfl⟩ : ∃ f, fuel = f + 1 + 1 + 1 := ⟨fuel - 3, by omega⟩
    rw [runFrom_retrieveN_succ, runFrom_gradeN_succ]
    have he : (gradeNode env (retrieve env st)).loop_step = st.loop_step := rfl
    by_cases hc : decide_to_generate (gradeNode env (retrieve env st)).documents
        (gradeNode env (retrieve env st)).loop_step = "transform_query"
    · rw [if_pos (by rw [beq_iff_eq]; exact hc)]
      rw [runFrom_transformN_succ]
      have hlt : st.loop_step < 3 := by
        have h2 := (decide_to_generate_iff _ _).mp hc
        omega
      have h1 : (transform_query env (gradeNode env (retrieve env st))).loop_step
          = st.loop_step + 1 := rfl
      obtain ⟨out, hout, hb⟩ := ih env (transform_query env (gradeNode env (retrieve env st)))
        f (by omega) (by omega) (by omega)
      exact ⟨out, hout, hb⟩
    · rw [if_neg (by rw [beq_iff_eq]; exact hc)]
      rw [runFrom_generateN_succ]
      refine ⟨_, rfl, ?_⟩
      have h1 : (generate_rag env (gradeNode env (retrieve env st))).loop_step
          = st.loop_step := rfl
      omega

theorem chunkText_head_fst (s : List Char) (start : Nat) :
    ∀ pr ∈ (chunkText s start).head?, pr.1 = start := by
  intro pr hpr
  rw [chunkText] at hpr
  split at hpr
  · simp at hpr
  · split at hpr
    · simp only [List.head?_cons, Option.mem_def, Option.some.injEq] at hpr
      rw [← hpr]
    · simp only [List.head?_cons, Option.mem_def, Option.some.injEq] at hpr
      rw [← hpr]

theorem chunkText_ne_nil (s : List Char) (start : Nat) (h : s ≠ []) :
    chunkText s start ≠ [] := by
  rw [chunkText]
  split
  · exact absurd ‹s = []› h
  · split
    · simp
    · simp

theorem chunkText_chain (s : List Char) (start : Nat) :
    List.Chain' (fun a b => b.1 = a.1 + 800) (chunkText s start) := by
  rw [chunkText]
  split
  · exact List.chain'_nil
  · split
    · simp
    · rename_i hnil hlen
      rw [List.chain'_cons']
      constructor
      · intro b hb
        have h1 := chunkText_head_fst (s.drop (chunk_size - chunk_overlap))
          (start + (chunk_size - chunk_overlap)) b hb
        rw [h1]
        simp [chunk_size, chunk_overlap]
      · exact chunkText_chain (s.drop (chunk_size - chunk_overlap))
          (start + (chunk_size - chunk_overlap))
termination_by s.length
decreasing_by
  have h1 : ¬s = [] := by assumption
  have h2 : 0 < s.length := List.length_pos.mpr h1
  simp only [List.length_drop, chunk_size, chunk_overlap]
  omega

theorem chunkText_length_le (s : List Char) (start : Nat) :
    ∀ c ∈ chunkText s start, c.2.length ≤ 1000 := by
  intro c hc
  rw [chunkText] at hc
  split at hc
  · simp at hc
  · split at hc
    · rename_i hnil hlen
      simp only [List.mem_singleton] at hc
      rw [hc]
      exact hlen
    · rename_i hnil hlen
      rcases List.mem_cons.mp hc with h | h
      · rw [h]
        exact List.length_take_le chunk_size s
      · exact chunkText_length_le _ _ c h
termination_by s.length
decreasing_by
  have h1 : ¬s = [] := by assumption
  have h2 : 0 < s.length := List.length_pos.mpr h1
  simp only [List.length_drop, chunk_size, chunk_overlap]
  omega

theorem chunkText_dropLast_length (s : List Char) (start : Nat) :
    ∀ c ∈ (chunkText s start).dropLast, c.2.length = 1000 := by
  intro c hc
  rw [chunkText] at hc
  split at hc
  · simp at hc
  · split at hc
    · simp at hc
    · rename_i hnil hlen
      have hd : s.drop (chunk_size - chunk_overlap) ≠ [] := by
        intro hdrop
        have h0 := congrArg List.length hdrop
        simp only [List.length_drop, List.length_nil, chunk_size, chunk_overlap] at h0
        simp only [chunk_size] at hlen
        omega
      rw [List.dropLast_cons_of_ne_nil (chunkText_ne_nil _ _ hd)] at hc
      rcases List.mem_cons.mp hc with h | h
      · rw [h]
        simp only [List.length_take, chunk_size] at hlen ⊢
        omega
      · exact chunkText_dropLast_length _ _ c h
termination_by s.length
decreasing_by
  have h1 : ¬s = [] := by assumption
  have h2 : 0 < s.length := List.length_pos.mpr h1
  simp only [List.length_drop, chunk_size, chunk_overlap]
  omega

/-! ## Claim theorems -/

/-- C10: for every string `s`, `split_into_chunks(s)` (default chunk
size 2000) returns segments each of length at most 2000 whose in-order
concatenation equals `s` exactly — the split is lossless. -/
theorem split_into_chunks_lossless (s : List Char) :
    (∀ c ∈ split_into_chunks s, c.length ≤ 2000) ∧ (split_into_chunks s).flatten = s :=
  ⟨split_into_chunks_length_le s 2000, split_into_chunks_flatten s 2000 (by decide)⟩

/-- C7: grading keeps exactly the chunks whose grader output is the
strict string `"yes"` (any other output drops the chunk), in their
original rank order (the result is a sublist of the retrieved list). -/
theorem grade_documents_keeps_exactly_yes (documents : List Document)
    (scores : List String) :
    grade_documents documents scores =
        ((documents.zip scores).filter (fun pr => pr.2 == "yes")).map Prod.fst
      ∧ (grade_documents documents scores).Sublist documents := by
  constructor
  · by_cases h : documents.isEmpty
    · rw [List.isEmpty_iff] at h
      subst h
      simp [grade_documents, gradeFilter]
    · rw [grade_documents, if_neg h, gradeFilter_eq_filter]
  · by_cases h : documents.isEmpty
    · rw [grade_documents, if_pos h]; exact List.nil_sublist documents
    · rw [grade_documents, if_neg h]; exact gradeFilter_zip_sublist documents scores

/-- C9: the document loader returns `[]` — and never raises — when the
path no longer exists, when its extension is unsupported, or when the
format-specific parser fails; a supported, existing, parseable file
yields its ordered segments. -/
theorem load_document_by_extension_safe (env : LoaderEnv) (file_path : Path) :
    (env.exists_on_disk file_path = false →
        load_document_by_extension env file_path = [])
    ∧ (isSupportedExt (extLower file_path) = false →
        load_document_by_extension env file_path = [])
    ∧ (∀ e, env.parse file_path = Except.error e →
        load_document_by_extension env file_path = [])
    ∧ (∀ docs, env.exists_on_disk file_path = true →
        isSupportedExt (extLower file_path) = true →
        env.parse file_path = Except.ok docs →
        load_document_by_extension env file_path = docs) := by
  refine ⟨fun h => ?_, fun h => ?_, fun e h => ?_, fun docs h1 h2 h3 => ?_⟩
  · simp [load_document_by_extension, h]
  · by_cases hx : env.exists_on_disk file_path = false
    · simp [load_document_by_extension, hx]
    · simp [load_document_by_extension, hx, h]
  · by_cases hx : env.exists_on_disk file_path = false
    · simp [load_document_by_extension, hx]
    · by_cases hs : isSupportedExt (extLower file_path)
      · simp [load_document_by_extension, hx, hs, h]
      · simp [load_document_by_extension, hx, hs]
  · simp [load_document_by_extension, h1, h2, h3]

/-- C8: an exception raised by the state-machine execution — including
`GraphRecursionError` from exceeding the hard step ceiling of 25
transitions (`recursion_limit`) — is returned by `query_documents` as
an explicit error result (`"Error: ..."` string, or an error-keyed
dictionary when sources are requested), never propagated. -/
theorem query_documents_surfaces_errors :
    (∀ e : String,
        query_documents (Except.error e) false = QueryOutput.errorText ("Error: " ++ e)
        ∧ query_documents (Except.error e) true = QueryOutput.errorDict e
        ∧ ∀ inc : Bool, isErrorOutput (query_documents (Except.error e) inc) = true)
    ∧ recursion_limit = 25
    ∧ (∀ (env : RagEnv) (node : Node) (st : GraphState),
        runFrom env 0 node st = Except.error "GraphRecursionError")
    ∧ ∀ (env : RagEnv) (node : Node) (st : GraphState) (inc : Bool),
        isErrorOutput (query_documents (runFrom env 0 node st) inc) = true := by
  refine ⟨fun e => ⟨rfl, rfl, fun inc => ?_⟩, rfl, fun env node st => rfl,
    fun env node st inc => ?_⟩
  · cases inc <;> rfl
  · cases inc <;> rfl

/-- C4 (amended): when the worker dequeues an event while
`GLOBAL_VECTORSTORE` is still `None`, it marks the event done and
`continue`s — the store and manifest are untouched but the event is
removed from the queue (discarded), not re-queued. -/
theorem worker_skips_event_when_store_missing (env : IngestEnv) (m : Manifest)
    (q : List (String × Path)) (ev : String × Path) :
    workerStep env { store := none, manifest := m, queue := ev :: q } =
      { store := none, manifest := m, queue := q } := by
  obtain ⟨a, p⟩ := ev
  rfl

/-- C4 counterexample: with the store not yet constructed, a dequeued
`add` event for `"a.txt"` is dropped outright — afterwards the queue no
longer holds it and nothing was processed, refuting "the event is not
discarded". -/
theorem worker_none_store_drops_event :
    workerStep
        { loader := { exists_on_disk := fun _ => true, parse := fun _ => Except.ok [] }
          sigOf := fun _ => none
          insertOk := true }
        { store := none, manifest := [], queue := [("add", "a.txt")] } =
      { store := none, manifest := [], queue := [] } := rfl

/-- C2: the post-grading decision routes to Transform iff zero chunks
survive grading and the loop counter is `< 3`, otherwise to Generate;
and for every environment and question the driver (at the configured
recursion limit) reaches Generate with at most 3 rewrites, so every
query produces an answer. -/
theorem rag_routing_and_rewrite_bound :
    (∀ (documents : List Document) (loop_step : Nat),
        decide_to_generate documents loop_step = "transform_query" ↔
          (documents = [] ∧ loop_step < 3))
    ∧ ∀ (env : RagEnv) (q : String),
        ∃ out, runFrom env recursion_limit .retrieveN (initialState q) = Except.ok out
          ∧ out.loop_step ≤ 3 := by
  refine ⟨decide_to_generate_iff, fun env q => ?_⟩
  exact runFrom_reaches_generate 3 env (initialState q) recursion_limit
    (by simp [initialState]) (by simp [initialState]) (by decide)

/-- C5: chunking any text with window 1000 / overlap 200 yields chunks
whose consecutive start offsets increase by exactly 800, every chunk at
most 1000 units long, and every chunk except possibly the last exactly
1000 units long. -/
theorem chunker_offsets_spaced_and_bounded (s : List Char) :
    List.Chain' (fun a b => b.1 = a.1 + 800) (chunkText s 0)
    ∧ (∀ c ∈ chunkText s 0, c.2.length ≤ 1000)
    ∧ (∀ c ∈ (chunkText s 0).dropLast, c.2.length = 1000) :=
  ⟨chunkText_chain s 0, chunkText_length_le s 0, chunkText_dropLast_length s 0⟩

/-- C6: a file whose current signature equals its stored manifest entry
is classified unchanged by the bulk pass: it lands neither in
`files_to_ingest` (so it is not re-loaded, re-embedded or re-inserted)
nor in `deleted_files`. -/
theorem unchanged_file_not_reingested (m : Manifest) (current : List (Path × Sig))
    (p : Path) (s : Sig)
    (hm : manifestLookup m p = some (some s))
    (hc : currentLookup current p = some s) :
    p ∉ files_to_ingest m current ∧ p ∉ deleted_files m current := by
  constructor
  · intro hp
    rw [files_to_ingest, List.mem_append] at hp
    rcases hp with hp | hp
    · rw [new_files, List.mem_filter] at hp
      rw [hm] at hp
      simp at hp
    · rw [updated_files, List.mem_filter] at hp
      have h2 := hp.2
      rw [hm, hc] at h2
      simp at h2
  · intro hp
    rw [deleted_files, List.mem_filter] at hp
    have h2 := hp.2
    have hmem : p ∈ current.map (fun e => e.1) := by
      rw [currentLookup] at hc
      obtain ⟨e, he⟩ : ∃ e, current.find? (fun e => e.1 == p) = some e := by
        cases hfind : current.find? (fun e => e.1 == p) with
        | none => rw [hfind] at hc; simp at hc
        | some e => exact ⟨e, rfl⟩
      have hin := List.mem_of_find?_eq_some he
      have hpe := List.find?_some he
      simp only [beq_iff_eq] at hpe
      exact List.mem_map.mpr ⟨e, hin, hpe⟩
    simp [hmem] at h2

/-- Witness for C6 at a concrete manifest and snapshot: a file with a
matching stored signature is in neither ingest set. -/
theorem unchanged_file_not_reingested_witness :
    "a.txt" ∉ files_to_ingest [("a.txt", some ⟨1, 2⟩)] [("a.txt", ⟨1, 2⟩)]
    ∧ "a.txt" ∉ deleted_files [("a.txt", some ⟨1, 2⟩)] [("a.txt", ⟨1, 2⟩)] :=
  unchanged_file_not_reingested [("a.txt", some ⟨1, 2⟩)] [("a.txt", ⟨1, 2⟩)]
    "a.txt" ⟨1, 2⟩ (by decide) (by decide)

/-- C3 (amended): only an `update` event deletes the path's existing
chunks before reinsertion — its result store is the old store purged of
that source, possibly extended by the freshly split chunks — while an
`add` event inserts without any prior deletion, leaving whatever chunks
the path already had in place. -/
theorem update_deletes_first_add_does_not (env : IngestEnv) (vs : VectorStore)
    (m : Manifest) (p : Path) :
    ((processEvent env vs m "update" p).1 = deleteSource vs p
      ∨ (processEvent env vs m "update" p).1 =
          deleteSource vs p ++ splitDocuments (load_document_by_extension env.loader p))
    ∧ ((processEvent env vs m "add" p).1 = vs
      ∨ (processEvent env vs m "add" p).1 =
          vs ++ splitDocuments (load_document_by_extension env.loader p)) := by
  have hu : processEvent env vs m "update" p = ingestFile env (deleteSource vs p) m p := rfl
  have ha : processEvent env vs m "add" p = ingestFile env vs m p := rfl
  rw [hu, ha]
  constructor
  · unfold ingestFile
    by_cases h1 : (load_document_by_extension env.loader p).isEmpty
    · rw [if_pos h1]; exact Or.inl rfl
    · rw [if_neg h1]
      by_cases h2 : (splitDocuments (load_document_by_extension env.loader p)).isEmpty
      · rw [if_pos h2]; exact Or.inl rfl
      · rw [if_neg h2]
        by_cases h3 : env.insertOk = true
        · rw [if_pos h3]; exact Or.inr rfl
        · rw [if_neg h3]; exact Or.inl rfl
  · unfold ingestFile
    by_cases h1 : (load_document_by_extension env.loader p).isEmpty
    · rw [if_pos h1]; exact Or.inl rfl
    · rw [if_neg h1]
      by_cases h2 : (splitDocuments (load_document_by_extension env.loader p)).isEmpty
      · rw [if_pos h2]; exact Or.inl rfl
      · rw [if_neg h2]
        by_cases h3 : env.insertOk = true
        · rw [if_pos h3]; exact Or.inr rfl
        · rw [if_neg h3]; exact Or.inl rfl

/-- A stale chunk for `b.txt` already in the store. -/
def oldChunk : Document :=
  { page_content := "stale", source := "b.txt", page := none, start_index := some 0 }

/-- The document the loader now produces for `b.txt`. -/
def freshDoc : Document :=
  { page_content := "fresh", source := "b.txt", page := none, start_index := none }

/-- The chunk `freshDoc` splits into. -/
def freshChunk : Document :=
  { page_content := "fresh", source := "b.txt", page := none, start_index := some 0 }

/-- Worker environment for the C3 counterexample: `b.txt` exists and
parses to `freshDoc`. -/
def addEnv : IngestEnv :=
  { loader :=
      { exists_on_disk := fun _ => true
        parse := fun _ => Except.ok [freshDoc] }
    sigOf := fun _ => some ⟨3, 5⟩
    insertOk := true }

/-- C3 counterexample: processing an `add` event for `b.txt` while the
store already holds a chunk for `b.txt` does not delete it first — the
stale chunk survives next to the fresh one, so the path ends with two
chunks (duplicates), contradicting the claim for Add events. -/
theorem add_event_leaves_duplicate_chunks :
    ((processEvent addEnv [oldChunk] [] "add" "b.txt").1.filter
        (fun d => d.source == "b.txt")).length = 2
    ∧ oldChunk ∈ (processEvent addEnv [oldChunk] [] "add" "b.txt").1 := by
  have h0 : processEvent addEnv [oldChunk] [] "add" "b.txt" =
      ingestFile addEnv [oldChunk] [] "b.txt" := rfl
  have hchunk : chunkText "fresh".toList 0 = [(0, "fresh".toList)] := by
    simp [chunkText, chunk_size]
  have hload : load_document_by_extension addEnv.loader "b.txt" = [freshDoc] := by decide
  have hsplit : splitDocuments [freshDoc] = [freshChunk] := by
    unfold splitDocuments
    simp only [List.flatMap_cons, List.flatMap_nil, List.append_nil]
    have hpc : freshDoc.page_content = "fresh" := rfl
    rw [hpc, hchunk]
    decide
  have h1 : ingestFile addEnv [oldChunk] [] "b.txt" =
      ([oldChunk] ++ [freshChunk], updateManifest addEnv.sigOf "add" [] "b.txt") := by
    unfold ingestFile
    rw [hload]
    rw [if_neg (by decide)]
    rw [hsplit]
    rw [if_neg (by decide), if_pos (by decide)]
  rw [h0, h1]
  exact ⟨by decide, by decide⟩

/-- The document `A.txt` parses to in the bulk-ingestion scenario. -/
def docA : Document :=
  { page_content := "alpha", source := "A.txt", page := none, start_index := none }

/-- The chunk `docA` splits into. -/
def chunkA : Document :=
  { page_content := "alpha", source := "A.txt", page := none, start_index := some 0 }

/-- Bulk-ingestion scenario for C1: `A.txt` parses to one document,
`B.txt`'s parser raises (so its load yields `[]`), both files exist
with the signatures below. -/
def bulkEnv : IngestEnv :=
  { loader :=
      { exists_on_disk := fun _ => true
        parse := fun p =>
          if p == "A.txt" then Except.ok [docA] else Except.error "parse failed" }
    sigOf := fun p =>
      if p == "A.txt" then some ⟨1, 10⟩
      else if p == "B.txt" then some ⟨2, 20⟩
      else none
    insertOk := true }

/-- The walked snapshot for the C1 scenario: both files are new. -/
def bulkCurrent : List (Path × Sig) := [("A.txt", ⟨1, 10⟩), ("B.txt", ⟨2, 20⟩)]

/-- C1 (code bug, bulk pass): running the startup bulk ingestion over
new files `A.txt` (parses to one document) and `B.txt` (its load fails,
yielding no documents) writes a manifest entry for `B.txt` with its
current signature even though not a single chunk of `B.txt` was
inserted into the store — while `A.txt`'s chunks are present. This
contradicts the claim that manifest entries are written only for files
that were successfully parsed and inserted. -/
theorem bulk_pass_writes_manifest_without_insert :
    manifestLookup (bulkIngest bulkEnv [] bulkCurrent []).2 "B.txt" = some (some ⟨2, 20⟩)
    ∧ (bulkIngest bulkEnv [] bulkCurrent []).1.filter (fun d => d.source == "B.txt") = []
    ∧ (bulkIngest bulkEnv [] bulkCurrent []).1.filter (fun d => d.source == "A.txt")
        = [chunkA] := by
  have hchunk : chunkText "alpha".toList 0 = [(0, "alpha".toList)] := by
    simp [chunkText, chunk_size]
  have hsplit : splitDocuments [docA] = [chunkA] := by
    unfold splitDocuments
    simp only [List.flatMap_cons, List.flatMap_nil, List.append_nil]
    have hpc : docA.page_content = "alpha" := rfl
    rw [hpc, hchunk]
    decide
  have hbulk : bulkIngest bulkEnv [] bulkCurrent [] =
      ([] ++ splitDocuments [docA],
        [("A.txt", some ⟨1, 10⟩), ("B.txt", some ⟨2, 20⟩)]) := rfl
  rw [hbulk, hsplit]
  exact ⟨by decide, by decide, by decide⟩

end LoreCompendium
